import Mathlib

/-!
# Shallow embedding of the seiagenpay payment-request lifecycle engine

This file embeds the payment lifecycle code of the repository:

* `X402PayService` (createPaymentRequest, handlePaymentSuccess, scheduleRefund,
  cancelPaymentRequest, loadActivePaymentRoutes, and the timeout fallback branch
  of the `/x402pay/:paymentId` route handler), and
* `SchedulingService` (processScheduledRequests / activatePaymentRequest,
  processScheduledRefunds / executeRefund, processScheduledPayments /
  executeOutgoingPayment).

Conventions of the embedding:
* Prisma tables become lists inside a `DB` structure; `update where id` becomes
  a lookup-then-map that fails (`Except.error`) when the record is absent,
  exactly as Prisma throws.
* The in-memory `this.paymentRoutes` JS `Map` becomes an association list with
  `mapSet` / `mapDelete` / `mapLookup` mirroring `Map.set/delete/get`.
* Wall-clock instants are abstract `Nat` ticks measured in days, so the JS
  `refundDate.setDate(refundDate.getDate() + 30)` becomes `now + 30`.
* Nondeterministic inputs of an operation (the generated payment id, the
  current time, the result of the external `walletService.sendCrypto` call)
  are explicit parameters.
* Calls to the external Notion mirror and to `sendCrypto` are recorded in
  trace fields (`notionUpdates`, `sentTransfers`) so side-effect counts are
  observable.
* Statuses and transaction kinds are the literal strings of the source.
-/

namespace AgenPay

/-- Abstract wall-clock instant, measured in days. -/
abbrev Instant := Nat

/-- `Map.get` of the JS route map. -/
def mapLookup {α : Type} (m : List (String × α)) (k : String) : Option α :=
  match m with
  | [] => none
  | (k', v) :: rest => if k' = k then some v else mapLookup rest k

/-- `Map.set` of the JS route map: insert or overwrite. -/
def mapSet {α : Type} (m : List (String × α)) (k : String) (v : α) : List (String × α) :=
  match m with
  | [] => [(k, v)]
  | (k', v') :: rest => if k' = k then (k, v) :: rest else (k', v') :: mapSet rest k v

/-- `Map.delete` of the JS route map. -/
def mapDelete {α : Type} (m : List (String × α)) (k : String) : List (String × α) :=
  match m with
  | [] => []
  | (k', v') :: rest => if k' = k then rest else (k', v') :: mapDelete rest k

/-- A row of the `User` table (the columns the payment code reads). -/
structure User where
  id : String
  walletAddress : Option String
  email : Option String
  deriving DecidableEq

/-- A row of the `PaymentRequest` table. -/
structure PaymentRequest where
  id : String
  userId : String
  amount : Nat
  currency : String
  network : String
  recipientEmail : Option String
  recipientName : Option String
  description : Option String
  aiPrompt : Option String
  transactionType : String
  scheduleType : String
  scheduledDate : Option Instant
  status : String
  x402PayLink : String
  paymentHash : Option String
  paidAt : Option Instant
  refundDate : Option Instant
  createdAt : Instant
  deriving DecidableEq

/-- A row of the `Transaction` table (the ledger). -/
structure Transaction where
  userId : String
  txnType : String
  status : String
  amount : Nat
  currency : String
  network : String
  description : Option String
  toAddress : Option String
  fromAddress : Option String
  x402PayId : Option String
  relatedRequestId : Option String
  txHash : String
  completedAt : Option Instant
  deriving DecidableEq

/-- A row of the `OutgoingPayment` table. -/
structure OutgoingPayment where
  id : String
  userId : String
  amount : Nat
  currency : String
  network : String
  recipientAddress : Option String
  recipientName : Option String
  fromName : Option String
  description : Option String
  scheduleDate : Instant
  status : String
  txHash : Option String
  executedAt : Option Instant
  relatedRequestId : Option String
  deriving DecidableEq

/-- The durable store. `nextOutgoingId` models Prisma's generated ids for
`OutgoingPayment` rows. -/
structure DB where
  users : List User
  paymentRequests : List PaymentRequest
  transactions : List Transaction
  outgoingPayments : List OutgoingPayment
  nextOutgoingId : Nat
  deriving DecidableEq

/-- `prisma.user.findUnique({ where: { id } })`. -/
def DB.findUser (db : DB) (userId : String) : Option User :=
  db.users.find? (fun u => u.id == userId)

/-- `user?.walletAddress`: the owning user's wallet address (also reached
through the `include: { user: ... }` join as `payment.user?.walletAddress`). -/
def ownerWallet (users : List User) (uid : String) : Option String :=
  (users.find? (fun u => u.id == uid)).bind (fun u => u.walletAddress)

/-- `prisma.paymentRequest.findUnique({ where: { id } })`. -/
def DB.findPaymentRequest (db : DB) (id : String) : Option PaymentRequest :=
  db.paymentRequests.find? (fun r => r.id == id)

/-- `prisma.paymentRequest.update({ where: { id }, data })`: throws when the
record does not exist, otherwise rewrites the row and returns it. -/
def DB.updatePaymentRequest (db : DB) (id : String) (f : PaymentRequest → PaymentRequest) :
    Except String (DB × PaymentRequest) :=
  match db.findPaymentRequest id with
  | none => Except.error "Record to update not found."
  | some r =>
      let r' := f r
      Except.ok
        ({ db with paymentRequests :=
            db.paymentRequests.map (fun q => if q.id == id then r' else q) }, r')

/-- `prisma.outgoingPayment.findUnique({ where: { id } })`. -/
def DB.findOutgoingPayment (db : DB) (id : String) : Option OutgoingPayment :=
  db.outgoingPayments.find? (fun p => p.id == id)

/-- `prisma.outgoingPayment.update({ where: { id }, data })`. -/
def DB.updateOutgoingPayment (db : DB) (id : String) (f : OutgoingPayment → OutgoingPayment) :
    Except String (DB × OutgoingPayment) :=
  match db.findOutgoingPayment id with
  | none => Except.error "Record to update not found."
  | some p =>
      let p' := f p
      Except.ok
        ({ db with outgoingPayments :=
            db.outgoingPayments.map (fun q => if q.id == id then p' else q) }, p')

/-- The in-memory route record stored in `this.paymentRoutes`. -/
structure RouteConfig where
  userId : String
  userWalletAddress : String
  amount : Nat
  currency : String
  network : String
  description : Option String
  transactionType : String
  createdAt : Instant
  deriving DecidableEq

/-- One invocation of `walletService.sendCrypto(userId, recipient, amount,
currency, network)`. -/
structure SendCall where
  userId : String
  recipient : Option String
  amount : Nat
  currency : String
  network : String
  deriving DecidableEq

/-- Result oracle for the external `sendCrypto` call: `some txHash` when
`result.success`, `none` when the send fails. -/
abbrev SendOracle := SendCall → Option String

/-- The full observable state of the service process: the durable store, the
in-memory route map, and traces of the external side-effect calls. -/
structure ServiceState where
  db : DB
  paymentRoutes : List (String × RouteConfig)
  notionUpdates : List String
  sentTransfers : List SendCall
  deriving DecidableEq

def baseUrl : String := "http://localhost:3001"

/-- Caller-supplied arguments of `createPaymentRequest` (after the JS
parameter defaults have been applied). -/
structure CreateParams where
  userId : String
  amount : Nat
  currency : String
  network : String
  recipientEmail : Option String
  recipientName : Option String
  description : Option String
  transactionType : String
  scheduleType : String
  scheduledDate : Option Instant
  aiPrompt : Option String
  deriving DecidableEq

/-- Return value of `createPaymentRequest`. -/
structure CreateResult where
  paymentId : String
  paymentUrl : String
  destinationWallet : String
  request : PaymentRequest
  deriving DecidableEq

/-- `X402PayService.createPaymentRequest`. `paymentId` is the generated
`x402_${Date.now()}_${random}` id, passed explicitly. The function
* rejects the call when the owning user has no Privy wallet,
* inserts the `PaymentRequest` row with status `processing` when
  `scheduleType === 'immediate'` and `scheduled` otherwise, and
* unconditionally registers the in-memory payment route. -/
def createPaymentRequest (s : ServiceState) (now : Instant) (paymentId : String)
    (p : CreateParams) : Except String (ServiceState × CreateResult) :=
  match ownerWallet s.db.users p.userId with
  | none => Except.error "User must create a Privy wallet before requesting payments"
  | some wallet =>
      if (s.db.findPaymentRequest paymentId).isSome then
        Except.error "Unique constraint failed on the fields: (id)"
      else
        let paymentUrl := baseUrl ++ "/x402pay/" ++ paymentId
        let request : PaymentRequest :=
          { id := paymentId
            userId := p.userId
            amount := p.amount
            currency := p.currency
            network := p.network
            recipientEmail := p.recipientEmail
            recipientName := p.recipientName
            description := p.description
            aiPrompt := p.aiPrompt
            transactionType := p.transactionType
            scheduleType := p.scheduleType
            scheduledDate := p.scheduledDate
            status := if p.scheduleType == "immediate" then "processing" else "scheduled"
            x402PayLink := paymentUrl
            paymentHash := none
            paidAt := none
            refundDate := none
            createdAt := now }
        let routeConfig : RouteConfig :=
          { userId := p.userId
            userWalletAddress := wallet
            amount := p.amount
            currency := p.currency
            network := p.network
            description := p.description
            transactionType := p.transactionType
            createdAt := now }
        let db' := { s.db with paymentRequests := s.db.paymentRequests ++ [request] }
        Except.ok
          ({ s with db := db', paymentRoutes := mapSet s.paymentRoutes paymentId routeConfig },
           { paymentId := paymentId
             paymentUrl := paymentUrl
             destinationWallet := wallet
             request := request })

/-- The string interpolation `` `Refund for: ${paymentRequest.description}` ``
(a `null` description prints as `"null"`). -/
def refundDescription (d : Option String) : String :=
  "Refund for: " ++ (match d with | some t => t | none => "null")

/-- The `data` of the `paymentRequest.update` inside `scheduleRefund`. -/
def setRefundDate (d : Instant) (r : PaymentRequest) : PaymentRequest :=
  { r with refundDate := some d }

/-- `X402PayService.scheduleRefund`: creates a `scheduled` `OutgoingPayment`
whose `recipientAddress` is the request's `recipientEmail`, due 30 days from
now, and stamps `refundDate` on the originating request. -/
def scheduleRefund (db : DB) (now : Instant) (pr : PaymentRequest) :
    Except String (DB × OutgoingPayment) :=
  let refundDate := now + 30
  let refund : OutgoingPayment :=
    { id := "out_" ++ toString db.nextOutgoingId
      userId := pr.userId
      amount := pr.amount
      currency := pr.currency
      network := pr.network
      recipientAddress := pr.recipientEmail
      recipientName := pr.recipientName
      fromName := some "AgenPay Refund System"
      description := some (refundDescription pr.description)
      scheduleDate := refundDate
      status := "scheduled"
      txHash := none
      executedAt := none
      relatedRequestId := some pr.id }
  let db1 := { db with outgoingPayments := db.outgoingPayments ++ [refund],
                       nextOutgoingId := db.nextOutgoingId + 1 }
  match db1.updatePaymentRequest pr.id (setRefundDate refundDate) with
  | Except.error e => Except.error e
  | Except.ok (db2, _) => Except.ok (db2, refund)

/-- Return value of `handlePaymentSuccess`: the updated request spread together
with `toAddress: user?.walletAddress`. -/
structure PaidResult where
  request : PaymentRequest
  toAddress : Option String
  deriving DecidableEq

/-- The `data` of the `paymentRequest.update` inside `handlePaymentSuccess`:
`status: 'payment_received'`, `paymentHash: paymentProof || 'X402_VERIFIED'`,
`paidAt: new Date()`. -/
def markPaidUpdate (now : Instant) (paymentProof : Option String)
    (r : PaymentRequest) : PaymentRequest :=
  { r with status := "payment_received"
           paymentHash := some (match paymentProof with | some pf => pf | none => "X402_VERIFIED")
           paidAt := some now }

/-- `X402PayService.handlePaymentSuccess`. Faithful to the source: there is no
guard on the current status. The function
1. reads the route config, falling back to the database record when the route
   is gone (and failing only when both are missing),
2. unconditionally updates the request to `payment_received` with
   `paymentHash`/`paidAt`,
3. appends an `INCOMING` `COMPLETED` ledger `Transaction`,
4. for `ask_and_refund` requests calls `scheduleRefund`,
5. records the Notion mirror call, and
6. deletes the in-memory route. -/
def handlePaymentSuccess (s : ServiceState) (now : Instant) (paymentId : String)
    (paymentProof : Option String) : Except String (ServiceState × PaidResult) :=
  let paymentConfig := mapLookup s.paymentRoutes paymentId
  let dbPaymentRequest :=
    match paymentConfig with
    | some _ => none
    | none => s.db.findPaymentRequest paymentId
  if paymentConfig.isNone && dbPaymentRequest.isNone then
    Except.error ("Payment configuration not found for " ++ paymentId)
  else
    let ownerId : String :=
      match paymentConfig with
      | some c => c.userId
      | none => (match dbPaymentRequest with | some r => r.userId | none => "")
    let user := s.db.findUser ownerId
    match s.db.updatePaymentRequest paymentId (markPaidUpdate now paymentProof) with
    | Except.error e => Except.error e
    | Except.ok (db1, paymentRequest) =>
      let txn : Transaction :=
        { userId := paymentRequest.userId
          txnType := "INCOMING"
          status := "COMPLETED"
          amount := paymentRequest.amount
          currency := paymentRequest.currency
          network := paymentRequest.network
          description := paymentRequest.description
          toAddress := user.bind (fun u => u.walletAddress)
          fromAddress := some "X402Pay_Verified_Sender"
          x402PayId := some paymentId
          relatedRequestId := some paymentId
          txHash := (match paymentProof with | some pf => pf | none => "x402_" ++ paymentId)
          completedAt := some now }
      let db2 := { db1 with transactions := db1.transactions ++ [txn] }
      match
        (if paymentRequest.transactionType == "ask_and_refund" then
          match scheduleRefund db2 now paymentRequest with
          | Except.error e => Except.error e
          | Except.ok (db3, _) => Except.ok db3
        else Except.ok db2) with
      | Except.error e => Except.error e
      | Except.ok db4 =>
        Except.ok
          ({ s with db := db4
                    paymentRoutes := mapDelete s.paymentRoutes paymentId
                    notionUpdates := s.notionUpdates ++ [paymentId] },
           { request := paymentRequest
             toAddress := user.bind (fun u => u.walletAddress) })

/-- A `data: { status }` update. -/
def setStatus (st : String) (r : PaymentRequest) : PaymentRequest :=
  { r with status := st }

/-- `X402PayService.cancelPaymentRequest`: unconditionally updates the status
to `cancelled` (no check of the current status) and removes the route. -/
def cancelPaymentRequest (s : ServiceState) (paymentId : String) :
    Except String (ServiceState × PaymentRequest) :=
  match s.db.updatePaymentRequest paymentId (setStatus "cancelled") with
  | Except.error e => Except.error e
  | Except.ok (db', r) =>
      Except.ok ({ s with db := db', paymentRoutes := mapDelete s.paymentRoutes paymentId }, r)

/-- An awaiting-payment status, as queried by `loadActivePaymentRoutes`
(`status: { in: ['processing', 'scheduled'] }`). -/
def isAwaiting (status : String) : Bool :=
  status == "processing" || status == "scheduled"

/-- The route record `loadActivePaymentRoutes` builds for one request row. -/
def routeOfPayment (payment : PaymentRequest) (w : String) : RouteConfig :=
  { userId := payment.userId
    userWalletAddress := w
    amount := payment.amount
    currency := payment.currency
    network := payment.network
    description := payment.description
    transactionType := payment.transactionType
    createdAt := payment.createdAt }

/-- The loop body of `loadActivePaymentRoutes`: register the route if the
owning user has a wallet address, skip the row otherwise. -/
def loadRouteStep (db : DB) (routes : List (String × RouteConfig))
    (payment : PaymentRequest) : List (String × RouteConfig) :=
  match ownerWallet db.users payment.userId with
  | some w => mapSet routes payment.id (routeOfPayment payment w)
  | none => routes

/-- `X402PayService.loadActivePaymentRoutes`, run at process start on the
constructor-fresh empty route map: scans all `processing`/`scheduled`
requests and registers a route for each whose owning user has a wallet
address. Reads only the durable store, so the result is independent of any
in-memory state of the previous process. -/
def loadActivePaymentRoutes (db : DB) : List (String × RouteConfig) :=
  (db.paymentRequests.filter (fun r => isAwaiting r.status)).foldl (loadRouteStep db) []

/-- The definite responses produced by the 5-second timeout fallback of the
`/x402pay/:paymentId` route handler. -/
inductive GatewayResponse where
  | successPage (paymentId : String) (amount : Nat) (currency : String)
      (description : Option String) (walletAddress : Option String)
  | verificationFailed (paymentId : String) (details : String)
  | timeoutError (paymentId : String)
  deriving DecidableEq

/-- The body of the `setTimeout` handler in `setupRoutes` (the state reached
when the X402 middleware has not completed within the 5-second window): with
an `x-payment` header present the payment is optimistically processed via
`handlePaymentSuccess` and a success page (HTTP 200) is sent, falling back to
a 400 error page if processing throws; with no header a 500 timeout error is
sent. -/
def x402TimeoutFallback (s : ServiceState) (now : Instant) (paymentId : String)
    (xPaymentHeader : Option String) : ServiceState × GatewayResponse :=
  match xPaymentHeader with
  | some proof =>
      match handlePaymentSuccess s now paymentId (some proof) with
      | Except.ok (s', result) =>
          (s', GatewayResponse.successPage paymentId result.request.amount
                result.request.currency result.request.description result.toAddress)
      | Except.error e => (s, GatewayResponse.verificationFailed paymentId e)
  | none => (s, GatewayResponse.timeoutError paymentId)

/-! ## SchedulingService -/

/-- The `where` filter of `processScheduledRequests`: `scheduleType:
'scheduled'`, `status: 'scheduled'`, `scheduledDate: { lte: now }` (a row with
a `NULL` `scheduledDate` is not matched by `lte`). -/
def dueScheduledRequests (db : DB) (now : Instant) : List PaymentRequest :=
  db.paymentRequests.filter (fun r =>
    r.scheduleType == "scheduled" && r.status == "scheduled" &&
      (match r.scheduledDate with | some d => decide (d ≤ now) | none => false))

/-- `SchedulingService.activatePaymentRequest`: updates the request status to
`processing` and mirrors to Notion; a failure of one item is caught and
logged, leaving the state unchanged. It does not touch the route map. -/
def activatePaymentRequest (s : ServiceState) (request : PaymentRequest) : ServiceState :=
  match s.db.updatePaymentRequest request.id (setStatus "processing") with
  | Except.error _ => s
  | Except.ok (db', _) =>
      { s with db := db', notionUpdates := s.notionUpdates ++ [request.id] }

/-- `SchedulingService.processScheduledRequests`: the activation cycle. -/
def processScheduledRequests (s : ServiceState) (now : Instant) : ServiceState :=
  (dueScheduledRequests s.db now).foldl activatePaymentRequest s

/-- The `where` filter of `processScheduledRefunds`: kind `ask_and_refund`,
status `payment_received`, `refundDate: { lte: now }`. -/
def refundDueRequests (db : DB) (now : Instant) : List PaymentRequest :=
  db.paymentRequests.filter (fun r =>
    r.transactionType == "ask_and_refund" && r.status == "payment_received" &&
      (match r.refundDate with | some d => decide (d ≤ now) | none => false))

/-- The `sendCrypto` invocation made by `executeRefund`: the recipient is the
request's `recipientEmail` field, passed directly. -/
def refundSendCall (pr : PaymentRequest) : SendCall :=
  { userId := pr.userId
    recipient := pr.recipientEmail
    amount := pr.amount
    currency := pr.currency
    network := pr.network }

/-- The `REFUND` ledger row created by `executeRefund` on a successful send. -/
def refundTxn (s : ServiceState) (now : Instant) (pr : PaymentRequest)
    (txHash : String) : Transaction :=
  { userId := pr.userId
    txnType := "REFUND"
    status := "COMPLETED"
    amount := pr.amount
    currency := pr.currency
    network := pr.network
    description := some (refundDescription pr.description)
    toAddress := pr.recipientEmail
    fromAddress := (s.db.findUser pr.userId).bind (fun u => u.walletAddress)
    x402PayId := none
    relatedRequestId := some pr.id
    txHash := txHash
    completedAt := some now }

/-- `SchedulingService.executeRefund`: sends the refund directly through
`walletService.sendCrypto` (recipient = `recipientEmail`); on success it
updates the request to `refunded` and appends a `REFUND` ledger row; on
failure everything is caught and the state is left unchanged. It neither
creates nor reads any `OutgoingPayment` row. -/
def executeRefund (s : ServiceState) (now : Instant) (send : SendOracle)
    (pr : PaymentRequest) : ServiceState :=
  let call := refundSendCall pr
  let s1 := { s with sentTransfers := s.sentTransfers ++ [call] }
  match send call with
  | none => s1
  | some txHash =>
      match s1.db.updatePaymentRequest pr.id (setStatus "refunded") with
      | Except.error _ => s1
      | Except.ok (db', _) =>
          { s1 with db := { db' with transactions := db'.transactions ++ [refundTxn s now pr txHash] }
                    notionUpdates := s1.notionUpdates ++ [pr.id] }

/-- `SchedulingService.processScheduledRefunds`: the hourly refund cycle. -/
def processScheduledRefunds (s : ServiceState) (now : Instant) (send : SendOracle) :
    ServiceState :=
  (refundDueRequests s.db now).foldl (fun acc pr => executeRefund acc now send pr) s

/-- The `where` filter of `processScheduledPayments`: `status: 'scheduled'`,
`scheduleDate: { lte: now }`. -/
def dueOutgoingPayments (db : DB) (now : Instant) : List OutgoingPayment :=
  db.outgoingPayments.filter (fun p =>
    p.status == "scheduled" && decide (p.scheduleDate ≤ now))

/-- The catch branch of `executeOutgoingPayment`: mark the payment `failed`. -/
def markOutgoingFailed (s : ServiceState) (now : Instant) (id : String) : ServiceState :=
  match s.db.updateOutgoingPayment id (fun p =>
      { p with status := "failed", executedAt := some now }) with
  | Except.error _ => s
  | Except.ok (db', _) => { s with db := db' }

/-- `SchedulingService.executeOutgoingPayment`: marks the row `processing`,
performs the external send, and on success marks it `completed` with the
transaction hash and appends an `OUTGOING` ledger row; any failure falls to
the catch branch that marks the row `failed`. -/
def executeOutgoingPayment (s : ServiceState) (now : Instant) (send : SendOracle)
    (payment : OutgoingPayment) : ServiceState :=
  match s.db.updateOutgoingPayment payment.id (fun p => { p with status := "processing" }) with
  | Except.error _ => s
  | Except.ok (db1, _) =>
      let call : SendCall :=
        { userId := payment.userId
          recipient := payment.recipientAddress
          amount := payment.amount
          currency := payment.currency
          network := payment.network }
      let s1 := { s with db := db1, sentTransfers := s.sentTransfers ++ [call] }
      match send call with
      | none => markOutgoingFailed s1 now payment.id
      | some txHash =>
          match s1.db.updateOutgoingPayment payment.id (fun p =>
              { p with status := "completed", txHash := some txHash, executedAt := some now }) with
          | Except.error _ => markOutgoingFailed s1 now payment.id
          | Except.ok (db2, _) =>
              let txn : Transaction :=
                { userId := payment.userId
                  txnType := "OUTGOING"
                  status := "COMPLETED"
                  amount := payment.amount
                  currency := payment.currency
                  network := payment.network
                  description := payment.description
                  toAddress := payment.recipientAddress
                  fromAddress := (db2.findUser payment.userId).bind (fun u => u.walletAddress)
                  x402PayId := none
                  relatedRequestId := payment.relatedRequestId
                  txHash := txHash
                  completedAt := some now }
              { s1 with db := { db2 with transactions := db2.transactions ++ [txn] }
                        notionUpdates := s1.notionUpdates ++ [payment.id] }

/-- `SchedulingService.processScheduledPayments`: the per-minute outgoing
payment cycle. -/
def processScheduledPayments (s : ServiceState) (now : Instant) (send : SendOracle) :
    ServiceState :=
  (dueOutgoingPayments s.db now).foldl (fun acc p => executeOutgoingPayment acc now send p) s

/-! ## Reachable states of the lifecycle engine -/

/-- `WalletService.createUserWallet` as far as the lifecycle engine sees it:
stamps a freshly created wallet address onto the user row. -/
def setUserWallet (s : ServiceState) (userId addr : String) : ServiceState :=
  { s with db := { s.db with users := s.db.users.map (fun u =>
      if u.id == userId then { u with walletAddress := some addr } else u) } }

/-- One observable operation of the lifecycle engine. Failed operations raise
before any write in the source, so they do not appear as steps. -/
inductive Step : ServiceState → ServiceState → Prop where
  | create (s : ServiceState) (now : Instant) (pid : String) (p : CreateParams)
      (out : ServiceState × CreateResult) :
      createPaymentRequest s now pid p = Except.ok out → Step s out.1
  | paid (s : ServiceState) (now : Instant) (pid : String) (proof : Option String)
      (out : ServiceState × PaidResult) :
      handlePaymentSuccess s now pid proof = Except.ok out → Step s out.1
  | cancel (s : ServiceState) (pid : String) (out : ServiceState × PaymentRequest) :
      cancelPaymentRequest s pid = Except.ok out → Step s out.1
  | activateCycle (s : ServiceState) (now : Instant) :
      Step s (processScheduledRequests s now)
  | refundCycle (s : ServiceState) (now : Instant) (send : SendOracle) :
      Step s (processScheduledRefunds s now send)
  | outgoingCycle (s : ServiceState) (now : Instant) (send : SendOracle) :
      Step s (processScheduledPayments s now send)
  | reload (s : ServiceState) :
      Step s { s with paymentRoutes := loadActivePaymentRoutes s.db }
  | walletCreated (s : ServiceState) (userId addr : String) :
      Step s (setUserWallet s userId addr)

/-- A fresh process over an empty payment store (users may pre-exist with or
without wallets). -/
def initState (users : List User) : ServiceState :=
  { db := { users := users, paymentRequests := [], transactions := [],
            outgoingPayments := [], nextOutgoingId := 0 }
    paymentRoutes := []
    notionUpdates := []
    sentTransfers := [] }

/-- States reachable by the lifecycle engine. -/
inductive Reach : ServiceState → Prop where
  | init (users : List User) : Reach (initState users)
  | step (s s' : ServiceState) : Reach s → Step s s' → Reach s'

/-! ## Lemmas about the map and Prisma-style list primitives -/

theorem mapLookup_mapSet {α : Type} (m : List (String × α)) (k k' : String) (v : α) :
    mapLookup (mapSet m k v) k' = if k = k' then some v else mapLookup m k' := by
  induction m with
  | nil => simp [mapSet, mapLookup]
  | cons kv rest ih =>
      obtain ⟨k0, v0⟩ := kv
      by_cases h0 : k0 = k
      · subst h0
        by_cases h1 : k0 = k' <;> simp [mapSet, mapLookup, h1]
      · by_cases h1 : k0 = k'
        · subst h1
          have hkk' : ¬ k = k0 := fun he => h0 he.symm
          simp [mapSet, mapLookup, h0, hkk']
        · simp [mapSet, mapLookup, h0, h1, ih]

theorem mapSet_length {α : Type} (m : List (String × α)) (k : String) (v : α) :
    (mapSet m k v).length =
      if (mapLookup m k).isSome then m.length else m.length + 1 := by
  induction m with
  | nil => simp [mapSet, mapLookup]
  | cons kv rest ih =>
      obtain ⟨k0, v0⟩ := kv
      by_cases h0 : k0 = k
      · simp [mapSet, mapLookup, h0]
      · simp [mapSet, mapLookup, h0, ih]
        by_cases h1 : (mapLookup rest k).isSome <;> simp [h1]

theorem find?_map_ite {α : Type} (p : α → Bool) (x : α) (hx : p x = true) (l : List α) :
    (l.map (fun q => if p q then x else q)).find? p = (l.find? p).map (fun _ => x) := by
  induction l with
  | nil => rfl
  | cons a l ih =>
      by_cases ha : p a = true
      · simp [List.find?, ha, hx]
      · simp only [Bool.not_eq_true] at ha
        simp [List.find?, ha, ih]

theorem find?_map_update_pr (l : List PaymentRequest) (pid : String)
    (x : PaymentRequest) (hx : x.id = pid) :
    (l.map (fun q => if q.id == pid then x else q)).find? (fun r => r.id == pid)
      = (l.find? (fun r => r.id == pid)).map (fun _ => x) := by
  induction l with
  | nil => rfl
  | cons a l ih =>
      by_cases ha : a.id = pid
      · have hab : (a.id == pid) = true := by simp [ha]
        have hxb : (x.id == pid) = true := by simp [hx]
        rw [List.map_cons, if_pos hab,
          @List.find?_cons_of_pos _ (fun r => r.id == pid) x _ hxb,
          @List.find?_cons_of_pos _ (fun r => r.id == pid) a _ hab]
        rfl
      · have hab : ¬ (a.id == pid) = true := by simp [ha]
        rw [List.map_cons, if_neg hab,
          @List.find?_cons_of_neg _ (fun r => r.id == pid) a _ hab,
          @List.find?_cons_of_neg _ (fun r => r.id == pid) a _ hab, ih]

theorem mem_map_ite {α : Type} {p : α → Bool} {x q' : α} {l : List α}
    (h : q' ∈ l.map (fun q => if p q then x else q)) :
    q' = x ∨ (q' ∈ l ∧ p q' = false) := by
  obtain ⟨q, hq, heq⟩ := List.mem_map.mp h
  by_cases hp : p q = true
  · left
    rw [if_pos hp] at heq
    exact heq.symm
  · right
    simp only [Bool.not_eq_true] at hp
    rw [if_neg (by simp [hp])] at heq
    subst heq
    exact ⟨hq, hp⟩

theorem map_ids_update {l : List PaymentRequest} {pid : String} {x : PaymentRequest}
    (hx : x.id = pid) :
    (l.map (fun q => if q.id == pid then x else q)).map (fun r => r.id)
      = l.map (fun r => r.id) := by
  rw [List.map_map]
  apply List.map_congr_left
  intro q _
  by_cases h : q.id = pid
  · simp [h, hx]
  · simp [h]

theorem find?_map_pres {α : Type} (p : α → Bool) (g : α → α)
    (hg : ∀ a, p (g a) = p a) (l : List α) :
    (l.map g).find? p = (l.find? p).map g := by
  induction l with
  | nil => rfl
  | cons a l ih =>
      by_cases ha : p a = true
      · simp [List.find?, ha, hg]
      · simp only [Bool.not_eq_true] at ha
        simp [List.find?, ha, hg, ih]

theorem findPaymentRequest_eq_some {db : DB} {id : String} {r : PaymentRequest}
    (h : db.findPaymentRequest id = some r) : r ∈ db.paymentRequests ∧ r.id = id := by
  refine ⟨List.mem_of_find?_eq_some h, ?_⟩
  have := List.find?_some h
  simpa using this

theorem updatePaymentRequest_ok {db db' : DB} {id : String}
    {f : PaymentRequest → PaymentRequest} {rr : PaymentRequest}
    (h : db.updatePaymentRequest id f = Except.ok (db', rr)) :
    ∃ r, db.findPaymentRequest id = some r ∧ rr = f r ∧
      db' = { db with paymentRequests :=
        db.paymentRequests.map (fun q => if q.id == id then f r else q) } := by
  unfold DB.updatePaymentRequest at h
  cases hf : db.findPaymentRequest id with
  | none => rw [hf] at h; cases h
  | some r =>
      rw [hf] at h
      simp only [Except.ok.injEq, Prod.mk.injEq] at h
      exact ⟨r, rfl, h.2.symm, h.1.symm⟩

theorem updateOutgoingPayment_ok {db db' : DB} {id : String}
    {f : OutgoingPayment → OutgoingPayment} {pp : OutgoingPayment}
    (h : db.updateOutgoingPayment id f = Except.ok (db', pp)) :
    db'.users = db.users ∧ db'.paymentRequests = db.paymentRequests := by
  unfold DB.updateOutgoingPayment at h
  cases hf : db.findOutgoingPayment id with
  | none => rw [hf] at h; cases h
  | some p =>
      rw [hf] at h
      simp only [Except.ok.injEq, Prod.mk.injEq] at h
      rw [← h.1]
      exact ⟨rfl, rfl⟩

/-! ## Database invariants maintained by the lifecycle engine -/

/-- The refund-scheduling consistency of one request row. `paidAt` is written
exactly when the row transitions to `payment_received` and is never cleared,
so `paidAt ≠ none` embeds "status has reached PaymentReceived". -/
def RefundConsistent (r : PaymentRequest) : Prop :=
  (r.refundDate ≠ none ↔ r.transactionType = "ask_and_refund" ∧ r.paidAt ≠ none) ∧
  (∀ d t, r.refundDate = some d → r.paidAt = some t → d = t + 30)

def RefundInv (db : DB) : Prop := ∀ r ∈ db.paymentRequests, RefundConsistent r

/-- Every persisted request belongs to a user with a wallet address (requests
are only created after the Privy-wallet guard). -/
def OwnersHaveWallets (db : DB) : Prop :=
  ∀ r ∈ db.paymentRequests, (ownerWallet db.users r.userId).isSome = true

/-- Request ids are pairwise distinct (the primary key). -/
def IdsNodup (db : DB) : Prop := (db.paymentRequests.map (fun r => r.id)).Nodup

def DBInv (db : DB) : Prop := RefundInv db ∧ OwnersHaveWallets db ∧ IdsNodup db

theorem dbinv_congr {db db' : DB} (hu : db'.users = db.users)
    (hp : db'.paymentRequests = db.paymentRequests) (h : DBInv db) : DBInv db' := by
  unfold DBInv RefundInv OwnersHaveWallets IdsNodup at *
  rw [hu, hp]
  exact h

/-- An update `data` that does not touch the refund bookkeeping fields nor the
identity fields. -/
def PreservesRefundFields (f : PaymentRequest → PaymentRequest) : Prop :=
  ∀ r, (f r).refundDate = r.refundDate ∧ (f r).transactionType = r.transactionType ∧
       (f r).paidAt = r.paidAt ∧ (f r).userId = r.userId ∧ (f r).id = r.id

theorem setStatus_preserves (st : String) : PreservesRefundFields (setStatus st) := by
  intro r
  exact ⟨rfl, rfl, rfl, rfl, rfl⟩

theorem dbinv_update_preserving {db db' : DB} {id : String}
    {f : PaymentRequest → PaymentRequest} {rr : PaymentRequest}
    (hf : PreservesRefundFields f)
    (h : db.updatePaymentRequest id f = Except.ok (db', rr))
    (inv : DBInv db) : DBInv db' := by
  obtain ⟨r, hfind, hrr, hdb⟩ := updatePaymentRequest_ok h
  obtain ⟨hrmem, hrid⟩ := findPaymentRequest_eq_some hfind
  subst hdb
  refine ⟨?_, ?_, ?_⟩
  · intro q hq
    rcases mem_map_ite hq with rfl | ⟨hq', _⟩
    · have hc := inv.1 r hrmem
      unfold RefundConsistent at hc ⊢
      rw [(hf r).1, (hf r).2.1, (hf r).2.2.1]
      exact hc
    · exact inv.1 q hq'
  · intro q hq
    rcases mem_map_ite hq with rfl | ⟨hq', _⟩
    · have := inv.2.1 r hrmem
      simpa [(hf r).2.2.2.1] using this
    · exact inv.2.1 q hq'
  · have hids := @map_ids_update db.paymentRequests id (f r)
      (by rw [(hf r).2.2.2.2, hrid])
    show ((db.paymentRequests.map
        (fun q => if q.id == id then f r else q)).map (fun r => r.id)).Nodup
    rw [hids]
    exact inv.2.2

/-- Full description of a successful `createPaymentRequest`. -/
theorem createPaymentRequest_ok {s : ServiceState} {now : Instant} {pid : String}
    {p : CreateParams} {out : ServiceState × CreateResult}
    (h : createPaymentRequest s now pid p = Except.ok out) :
    ownerWallet s.db.users p.userId = some out.2.destinationWallet ∧
    s.db.findPaymentRequest pid = none ∧
    out.1.db.users = s.db.users ∧
    out.1.db.paymentRequests = s.db.paymentRequests ++ [out.2.request] ∧
    out.1.db.transactions = s.db.transactions ∧
    out.1.db.outgoingPayments = s.db.outgoingPayments ∧
    out.1.paymentRoutes = mapSet s.paymentRoutes pid
      { userId := p.userId
        userWalletAddress := out.2.destinationWallet
        amount := p.amount
        currency := p.currency
        network := p.network
        description := p.description
        transactionType := p.transactionType
        createdAt := now } ∧
    out.1.notionUpdates = s.notionUpdates ∧
    out.1.sentTransfers = s.sentTransfers ∧
    out.2.paymentId = pid ∧
    out.2.request =
      { id := pid
        userId := p.userId
        amount := p.amount
        currency := p.currency
        network := p.network
        recipientEmail := p.recipientEmail
        recipientName := p.recipientName
        description := p.description
        aiPrompt := p.aiPrompt
        transactionType := p.transactionType
        scheduleType := p.scheduleType
        scheduledDate := p.scheduledDate
        status := if p.scheduleType == "immediate" then "processing" else "scheduled"
        x402PayLink := baseUrl ++ "/x402pay/" ++ pid
        paymentHash := none
        paidAt := none
        refundDate := none
        createdAt := now } := by
  unfold createPaymentRequest at h
  split at h
  · cases h
  · rename_i wallet hw
    split at h
    · cases h
    · rename_i hex
      injection h with h'
      subst h'
      refine ⟨hw, ?_, rfl, rfl, rfl, rfl, rfl, rfl, rfl, rfl, rfl⟩
      cases hfind : s.db.findPaymentRequest pid with
      | none => rfl
      | some r => rw [hfind] at hex; simp at hex

/-- Full description of a successful `scheduleRefund`. -/
theorem scheduleRefund_ok {db : DB} {now : Instant} {pr : PaymentRequest}
    {out : DB × OutgoingPayment}
    (h : scheduleRefund db now pr = Except.ok out) :
    out.2.recipientAddress = pr.recipientEmail ∧
    out.2.scheduleDate = now + 30 ∧
    out.2.status = "scheduled" ∧
    out.2.relatedRequestId = some pr.id ∧
    out.1.users = db.users ∧
    out.1.outgoingPayments = db.outgoingPayments ++ [out.2] ∧
    ∃ r1, db.findPaymentRequest pr.id = some r1 ∧
      out.1.paymentRequests = db.paymentRequests.map
        (fun q => if q.id == pr.id then setRefundDate (now + 30) r1 else q) := by
  simp only [scheduleRefund] at h
  split at h
  · cases h
  · rename_i db2 snd hu
    injection h with h'
    subst h'
    obtain ⟨r1, hfind, hq2, hq1⟩ := updatePaymentRequest_ok hu
    subst hq1
    exact ⟨rfl, rfl, rfl, rfl, rfl, rfl, r1, hfind, rfl⟩

/-- Full description of a successful `handlePaymentSuccess`: the request row
`r0` is rewritten to `payment_received`, the route is deleted, one Notion
mirror call is recorded, and (exactly for `ask_and_refund` rows) the refund is
scheduled on top. -/
theorem handlePaymentSuccess_ok {s : ServiceState} {now : Instant} {pid : String}
    {proof : Option String} {out : ServiceState × PaidResult}
    (h : handlePaymentSuccess s now pid proof = Except.ok out) :
    ∃ r0, s.db.findPaymentRequest pid = some r0 ∧
      out.2.request = markPaidUpdate now proof r0 ∧
      out.1.paymentRoutes = mapDelete s.paymentRoutes pid ∧
      out.1.notionUpdates = s.notionUpdates ++ [pid] ∧
      out.1.db.users = s.db.users ∧
      (∃ r', out.1.db.findPaymentRequest pid = some r' ∧
        r'.status = "payment_received" ∧ r'.paidAt = some now) ∧
      (out.1.db.paymentRequests.map (fun r => r.id))
        = (s.db.paymentRequests.map (fun r => r.id)) ∧
      ((r0.transactionType = "ask_and_refund" ∧
          (∀ q ∈ out.1.db.paymentRequests,
            q = setRefundDate (now + 30) (markPaidUpdate now proof r0) ∨
            (q ∈ s.db.paymentRequests ∧ ¬ q.id = pid))) ∨
        (¬ r0.transactionType = "ask_and_refund" ∧
          out.1.db.outgoingPayments = s.db.outgoingPayments ∧
          (∀ q ∈ out.1.db.paymentRequests,
            q = markPaidUpdate now proof r0 ∨
            (q ∈ s.db.paymentRequests ∧ ¬ q.id = pid)))) := by
  simp only [handlePaymentSuccess] at h
  split at h
  · cases h
  · split at h
    · cases h
    · rename_i db1 paymentRequest hupd
      split at h
      · cases h
      · rename_i db4 hif
        injection h with h'
        subst h'
        obtain ⟨r0, hfind0, hpr, hdb1⟩ := updatePaymentRequest_ok hupd
        obtain ⟨hr0mem, hr0id⟩ := findPaymentRequest_eq_some hfind0
        subst hpr
        subst hdb1
        have hxid : ((markPaidUpdate now proof r0).id == pid) = true := by
          simp [markPaidUpdate, hr0id]
        have hfind1 :
            (List.map (fun q => if q.id == pid then markPaidUpdate now proof r0 else q)
              s.db.paymentRequests).find? (fun r => r.id == pid)
              = some (markPaidUpdate now proof r0) := by
          rw [find?_map_update_pr s.db.paymentRequests pid
            (markPaidUpdate now proof r0) hr0id]
          have hy : s.db.paymentRequests.find? (fun r => r.id == pid) = some r0 := hfind0
          rw [hy]
          rfl
        refine ⟨r0, hfind0, rfl, rfl, rfl, ?_⟩
        have hmpid : (markPaidUpdate now proof r0).id = pid := hr0id
        split at hif
        · -- ask_and_refund: scheduleRefund ran on top of the paid update
          rename_i htype
          split at hif
          · cases hif
          · rename_i db3 snd hsch
            injection hif with hif'
            subst hif'
            obtain ⟨-, -, -, -, husers, -, r1, hfind1', hreq3⟩ := scheduleRefund_ok hsch
            rw [hmpid] at hfind1' hreq3
            have hr1 : r1 = markPaidUpdate now proof r0 := by
              have h12 : some r1 = some (markPaidUpdate now proof r0) :=
                hfind1'.symm.trans hfind1
              exact Option.some.inj h12
            subst hr1
            have hsid : ((setRefundDate (now + 30) (markPaidUpdate now proof r0)).id == pid)
                = true := hxid
            have htype' : r0.transactionType = "ask_and_refund" := by
              simpa [markPaidUpdate] using htype
            refine ⟨husers, ?_, ?_, Or.inl ⟨htype', ?_⟩⟩
            · refine ⟨setRefundDate (now + 30) (markPaidUpdate now proof r0), ?_, rfl, rfl⟩
              show db3.paymentRequests.find? (fun r => r.id == pid) = _
              rw [hreq3, find?_map_update_pr _ pid
                (setRefundDate (now + 30) (markPaidUpdate now proof r0)) hr0id, hfind1]
              rfl
            · show db3.paymentRequests.map (fun r => r.id) = _
              rw [hreq3,
                map_ids_update (show (setRefundDate (now + 30)
                  (markPaidUpdate now proof r0)).id = pid from hr0id)]
              exact map_ids_update hr0id
            · intro q hq
              rw [hreq3] at hq
              rcases mem_map_ite hq with rfl | ⟨hq2, hq2f⟩
              · exact Or.inl rfl
              · rcases mem_map_ite hq2 with rfl | ⟨hq3, hq3f⟩
                · exact absurd hxid (by simpa using hq2f)
                · exact Or.inr ⟨hq3, by simpa using hq3f⟩
        · -- not ask_and_refund: no refund scheduling
          rename_i htype
          injection hif with hif'
          subst hif'
          have htype' : ¬ r0.transactionType = "ask_and_refund" := by
            simpa [markPaidUpdate] using htype
          refine ⟨rfl, ?_, ?_, Or.inr ⟨htype', rfl, ?_⟩⟩
          · exact ⟨markPaidUpdate now proof r0, hfind1, rfl, rfl⟩
          · exact map_ids_update hr0id
          · intro q hq
            rcases mem_map_ite hq with rfl | ⟨hq2, hq2f⟩
            · exact Or.inl rfl
            · exact Or.inr ⟨hq2, by simpa using hq2f⟩

/-! ## Preservation of the database invariants by every operation -/

theorem dbinv_handlePaymentSuccess {s : ServiceState} {now : Instant} {pid : String}
    {proof : Option String} {out : ServiceState × PaidResult}
    (h : handlePaymentSuccess s now pid proof = Except.ok out)
    (inv : DBInv s.db) : DBInv out.1.db := by
  obtain ⟨r0, hfind0, -, -, -, husers, -, hids, hdisj⟩ := handlePaymentSuccess_ok h
  obtain ⟨hr0mem, hr0id⟩ := findPaymentRequest_eq_some hfind0
  refine ⟨?_, ?_, ?_⟩
  · intro q hq
    rcases hdisj with ⟨htype, hmem⟩ | ⟨htype, -, hmem⟩
    · rcases hmem q hq with rfl | ⟨hq', -⟩
      · refine ⟨⟨fun _ => ⟨htype, by simp [setRefundDate, markPaidUpdate]⟩,
          fun _ => by simp [setRefundDate, markPaidUpdate]⟩, ?_⟩
        intro d t hd ht
        rw [show (setRefundDate (now + 30) (markPaidUpdate now proof r0)).refundDate
          = some (now + 30) from rfl] at hd
        rw [show (setRefundDate (now + 30) (markPaidUpdate now proof r0)).paidAt
          = some now from rfl] at ht
        injection hd with hde
        injection ht with hte
        subst hde
        subst hte
        rfl
      · exact inv.1 q hq'
    · rcases hmem q hq with rfl | ⟨hq', -⟩
      · have hr0 := inv.1 r0 hr0mem
        have hrd : r0.refundDate = none := by
          by_contra hne
          exact htype (hr0.1.mp hne).1
        refine ⟨⟨fun hne => absurd (show (markPaidUpdate now proof r0).refundDate = none
            from hrd) hne, fun hc => absurd hc.1 htype⟩, ?_⟩
        intro d t hd ht
        rw [show (markPaidUpdate now proof r0).refundDate = r0.refundDate from rfl, hrd] at hd
        cases hd
      · exact inv.1 q hq'
  · intro q hq
    rw [show out.1.db.users = s.db.users from husers]
    rcases hdisj with ⟨-, hmem⟩ | ⟨-, -, hmem⟩ <;>
      rcases hmem q hq with rfl | ⟨hq', -⟩
    · exact inv.2.1 r0 hr0mem
    · exact inv.2.1 q hq'
    · exact inv.2.1 r0 hr0mem
    · exact inv.2.1 q hq'
  · show (out.1.db.paymentRequests.map (fun r => r.id)).Nodup
    rw [hids]
    exact inv.2.2

theorem dbinv_createPaymentRequest {s : ServiceState} {now : Instant} {pid : String}
    {p : CreateParams} {out : ServiceState × CreateResult}
    (h : createPaymentRequest s now pid p = Except.ok out)
    (inv : DBInv s.db) : DBInv out.1.db := by
  obtain ⟨hw, hnex, husers, hreqs, -, -, -, -, -, -, hreq⟩ := createPaymentRequest_ok h
  have hnotin : ∀ a ∈ s.db.paymentRequests, ¬ a.id = pid := by
    intro a ha hcontra
    have := List.find?_eq_none.mp hnex a ha
    simp [hcontra] at this
  refine ⟨?_, ?_, ?_⟩
  · intro q hq
    rw [hreqs] at hq
    rcases List.mem_append.mp hq with hq' | hq'
    · exact inv.1 q hq'
    · have hq'' : q = out.2.request := by simpa using hq'
      subst hq''
      rw [hreq]
      exact ⟨by simp, by intro d t hd ht; cases hd⟩
  · intro q hq
    rw [show out.1.db.users = s.db.users from husers]
    rw [hreqs] at hq
    rcases List.mem_append.mp hq with hq' | hq'
    · exact inv.2.1 q hq'
    · have hq'' : q = out.2.request := by simpa using hq'
      subst hq''
      rw [hreq]
      show (ownerWallet s.db.users p.userId).isSome = true
      rw [hw]
      rfl
  · show (out.1.db.paymentRequests.map (fun r => r.id)).Nodup
    rw [hreqs, List.map_append]
    refine List.Nodup.append inv.2.2 (by simp) ?_
    intro a ha hmem
    obtain ⟨r, hr, hrid⟩ := List.mem_map.mp ha
    have : a = out.2.request.id := by simpa using hmem
    rw [this, hreq] at hrid
    exact hnotin r hr hrid

theorem dbinv_cancelPaymentRequest {s : ServiceState} {pid : String}
    {out : ServiceState × PaymentRequest}
    (h : cancelPaymentRequest s pid = Except.ok out)
    (inv : DBInv s.db) : DBInv out.1.db := by
  unfold cancelPaymentRequest at h
  split at h
  · cases h
  · rename_i db' r heq
    injection h with h'
    subst h'
    exact dbinv_update_preserving (setStatus_preserves _) heq inv

theorem dbinv_activateOne (s : ServiceState) (r : PaymentRequest)
    (inv : DBInv s.db) : DBInv (activatePaymentRequest s r).db := by
  unfold activatePaymentRequest
  split
  · exact inv
  · rename_i db' rr heq
    exact dbinv_update_preserving (setStatus_preserves _) heq inv

theorem dbinv_foldl {β : Type} (f : ServiceState → β → ServiceState)
    (hf : ∀ t b, DBInv t.db → DBInv (f t b).db) (l : List β) :
    ∀ t, DBInv t.db → DBInv (l.foldl f t).db := by
  induction l with
  | nil => intro t h; exact h
  | cons a l ih => intro t h; exact ih _ (hf t a h)

theorem dbinv_executeRefund (s : ServiceState) (now : Instant) (send : SendOracle)
    (pr : PaymentRequest) (inv : DBInv s.db) : DBInv (executeRefund s now send pr).db := by
  simp only [executeRefund]
  split
  · exact inv
  · split
    · exact inv
    · rename_i tx db' rr heq
      have hinv' : DBInv db' := dbinv_update_preserving (setStatus_preserves _) heq inv
      exact dbinv_congr rfl rfl hinv'

theorem dbinv_markOutgoingFailed (s : ServiceState) (now : Instant) (id : String)
    (inv : DBInv s.db) : DBInv (markOutgoingFailed s now id).db := by
  unfold markOutgoingFailed
  split
  · exact inv
  · rename_i db' pp heq
    obtain ⟨hu, hp⟩ := updateOutgoingPayment_ok heq
    exact dbinv_congr hu hp inv

theorem dbinv_executeOutgoingPayment (s : ServiceState) (now : Instant)
    (send : SendOracle) (payment : OutgoingPayment) (inv : DBInv s.db) :
    DBInv (executeOutgoingPayment s now send payment).db := by
  simp only [executeOutgoingPayment]
  split
  · exact inv
  · rename_i db1 pp1 heq1
    obtain ⟨hu1, hp1⟩ := updateOutgoingPayment_ok heq1
    have inv1 : DBInv db1 := dbinv_congr hu1 hp1 inv
    split
    · exact dbinv_markOutgoingFailed _ now payment.id inv1
    · split
      · exact dbinv_markOutgoingFailed _ now payment.id inv1
      · rename_i tx db2 pp2 heq2
        obtain ⟨hu2, hp2⟩ := updateOutgoingPayment_ok heq2
        exact dbinv_congr hu2 hp2 inv1

theorem dbinv_setUserWallet (s : ServiceState) (uid addr : String)
    (inv : DBInv s.db) : DBInv (setUserWallet s uid addr).db := by
  refine ⟨inv.1, ?_, inv.2.2⟩
  intro q hq
  have hbase := inv.2.1 q hq
  show (ownerWallet (s.db.users.map
    (fun u => if u.id == uid then { u with walletAddress := some addr } else u))
      q.userId).isSome = true
  unfold ownerWallet at hbase ⊢
  have hrw := find?_map_pres (fun u => u.id == q.userId)
    (fun u => if u.id == uid then { u with walletAddress := some addr } else u)
    (by intro u; by_cases h2 : u.id = uid <;> simp [h2]) s.db.users
  rw [hrw]
  cases hfu : s.db.users.find? (fun u => u.id == q.userId) with
  | none => rw [hfu] at hbase; cases hbase
  | some u =>
      rw [hfu] at hbase
      by_cases h2 : u.id = uid
      · simp [h2]
      · simpa [h2] using hbase

theorem dbinv_step {s s' : ServiceState} (hs : Step s s') (inv : DBInv s.db) :
    DBInv s'.db := by
  cases hs with
  | create now pid p out h => exact dbinv_createPaymentRequest h inv
  | paid now pid proof out h => exact dbinv_handlePaymentSuccess h inv
  | cancel pid out h => exact dbinv_cancelPaymentRequest h inv
  | activateCycle now =>
      exact dbinv_foldl activatePaymentRequest dbinv_activateOne _ s inv
  | refundCycle now send =>
      exact dbinv_foldl _ (fun t pr hi => dbinv_executeRefund t now send pr hi) _ s inv
  | outgoingCycle now send =>
      exact dbinv_foldl _ (fun t pp hi => dbinv_executeOutgoingPayment t now send pp hi) _ s inv
  | reload => exact inv
  | walletCreated uid addr => exact dbinv_setUserWallet s uid addr inv

/-- Every reachable state satisfies the database invariants. -/
theorem reach_dbinv {s : ServiceState} (h : Reach s) : DBInv s.db := by
  induction h with
  | init users =>
      refine ⟨?_, ?_, ?_⟩
      · intro r hr; cases hr
      · intro r hr; cases hr
      · show (([] : List PaymentRequest).map (fun r => r.id)).Nodup
        simp
  | step s s' hr hstep ih => exact dbinv_step hstep ih

/-! ## Rebuilding the route registry from storage -/

theorem mapLookup_loadRoutesGo (db : DB) (l : List PaymentRequest) :
    ∀ routes : List (String × RouteConfig), ∀ id : String,
      (∀ r ∈ l, (ownerWallet db.users r.userId).isSome = true) →
      (mapLookup (l.foldl (loadRouteStep db) routes) id).isSome
        = (l.any (fun r => r.id == id) || (mapLookup routes id).isSome) := by
  induction l with
  | nil => intro routes id _; simp
  | cons a l ih =>
      intro routes id hW
      obtain ⟨w, hw⟩ := Option.isSome_iff_exists.mp (hW a (by simp))
      rw [List.foldl_cons,
        show loadRouteStep db routes a = mapSet routes a.id (routeOfPayment a w) from by
          unfold loadRouteStep; rw [hw],
        ih _ id (fun r hr => hW r (by simp [hr])), List.any_cons]
      have hms := mapLookup_mapSet routes a.id id (routeOfPayment a w)
      by_cases hid : a.id = id
      · rw [hms, if_pos hid]
        simp [hid]
      · rw [hms, if_neg hid]
        simp only [Bool.or_assoc, Bool.or_comm, Bool.or_left_comm]
        have : (a.id == id) = false := by simp [hid]
        rw [this]
        simp

theorem length_loadRoutesGo (db : DB) (l : List PaymentRequest) :
    ∀ routes : List (String × RouteConfig),
      (∀ r ∈ l, (ownerWallet db.users r.userId).isSome = true) →
      (l.map (fun r => r.id)).Nodup →
      (∀ r ∈ l, mapLookup routes r.id = none) →
      (l.foldl (loadRouteStep db) routes).length = routes.length + l.length := by
  induction l with
  | nil => intro routes _ _ _; simp
  | cons a l ih =>
      intro routes hW hN hD
      obtain ⟨w, hw⟩ := Option.isSome_iff_exists.mp (hW a (by simp))
      rw [List.foldl_cons,
        show loadRouteStep db routes a = mapSet routes a.id (routeOfPayment a w) from by
          unfold loadRouteStep; rw [hw]]
      have hN2 : (∀ x ∈ l, ¬ x.id = a.id) ∧ (List.map (fun r => r.id) l).Nodup := by
        simpa using hN
      have hN' : (l.map (fun r => r.id)).Nodup := hN2.2
      have hnotin : ∀ r ∈ l, ¬ r.id = a.id := hN2.1
      rw [ih _ (fun r hr => hW r (by simp [hr])) hN' ?hD']
      case hD' =>
        intro r hr
        rw [mapLookup_mapSet, if_neg (fun he => hnotin r hr he.symm)]
        exact hD r (by simp [hr])
      rw [mapSet_length, hD a (by simp)]
      simp only [Option.isSome_none, Bool.false_eq_true, if_false, List.length_cons]
      omega

/-- Rebuilding the registry from storage yields exactly one route per
awaiting-payment request (given the wallet and primary-key invariants). -/
theorem loadActive_length {db : DB}
    (hW : OwnersHaveWallets db) (hN : IdsNodup db) :
    (loadActivePaymentRoutes db).length
      = (db.paymentRequests.filter (fun r => isAwaiting r.status)).length := by
  unfold loadActivePaymentRoutes
  rw [length_loadRoutesGo db _ []
    (fun r hr => hW r (List.mem_of_mem_filter hr))
    (hN.sublist ((List.filter_sublist db.paymentRequests).map _))
    (fun r _ => rfl)]
  simp

/-- A rebuilt route exists exactly for the ids of awaiting-payment requests. -/
theorem loadActive_lookup {db : DB} (id : String)
    (hW : OwnersHaveWallets db) :
    (mapLookup (loadActivePaymentRoutes db) id).isSome = true
      ↔ ∃ r ∈ db.paymentRequests, r.id = id ∧ isAwaiting r.status = true := by
  unfold loadActivePaymentRoutes
  rw [mapLookup_loadRoutesGo db _ [] id
    (fun r hr => hW r (List.mem_of_mem_filter hr))]
  simp only [mapLookup, Option.isSome_none, Bool.or_false]
  rw [List.any_eq_true]
  constructor
  · rintro ⟨r, hr, hid⟩
    obtain ⟨hmem, hstat⟩ := List.mem_filter.mp hr
    exact ⟨r, hmem, by simpa using hid, hstat⟩
  · rintro ⟨r, hmem, hid, hstat⟩
    exact ⟨r, List.mem_filter.mpr ⟨hmem, hstat⟩, by simpa using hid⟩

/-! ## Behavior of the scheduler cycles -/

theorem activate_preserves_routes (s : ServiceState) (r : PaymentRequest) :
    (activatePaymentRequest s r).paymentRoutes = s.paymentRoutes := by
  unfold activatePaymentRequest
  split <;> rfl

theorem foldl_activate_routes (l : List PaymentRequest) :
    ∀ s : ServiceState, (l.foldl activatePaymentRequest s).paymentRoutes = s.paymentRoutes := by
  induction l with
  | nil => intro s; rfl
  | cons a l ih =>
      intro s
      rw [List.foldl_cons, ih, activate_preserves_routes]

/-- The activation cycle never touches the in-memory route registry. -/
theorem processScheduledRequests_routes (s : ServiceState) (now : Instant) :
    (processScheduledRequests s now).paymentRoutes = s.paymentRoutes :=
  foldl_activate_routes (dueScheduledRequests s.db now) s

theorem executeRefund_outgoing (s : ServiceState) (now : Instant) (send : SendOracle)
    (pr : PaymentRequest) :
    (executeRefund s now send pr).db.outgoingPayments = s.db.outgoingPayments := by
  simp only [executeRefund]
  split
  · rfl
  · split
    · rfl
    · rename_i tx db' rr heq
      obtain ⟨r1, -, -, hdb⟩ := updatePaymentRequest_ok heq
      subst hdb
      rfl

theorem foldl_refund_outgoing (now : Instant) (send : SendOracle) (l : List PaymentRequest) :
    ∀ s : ServiceState,
      (l.foldl (fun acc pr => executeRefund acc now send pr) s).db.outgoingPayments
        = s.db.outgoingPayments := by
  induction l with
  | nil => intro s; rfl
  | cons a l ih =>
      intro s
      rw [List.foldl_cons, ih, executeRefund_outgoing]

/-- The refund cycle never creates (or removes) an `OutgoingPayment` row. -/
theorem processScheduledRefunds_outgoing (s : ServiceState) (now : Instant)
    (send : SendOracle) :
    (processScheduledRefunds s now send).db.outgoingPayments = s.db.outgoingPayments :=
  foldl_refund_outgoing now send (refundDueRequests s.db now) s

/-- A successful direct refund send: the request is marked `refunded`
immediately, one `REFUND` ledger row is appended, and the `OutgoingPayment`
table is untouched. -/
theorem executeRefund_success_spec (s : ServiceState) (now : Instant) (send : SendOracle)
    (pr : PaymentRequest) (r : PaymentRequest) (txh : String)
    (hsend : send (refundSendCall pr) = some txh)
    (hfind : s.db.findPaymentRequest pr.id = some r) :
    (executeRefund s now send pr).db.findPaymentRequest pr.id
        = some (setStatus "refunded" r) ∧
    (executeRefund s now send pr).db.transactions
        = s.db.transactions ++ [refundTxn s now pr txh] ∧
    (executeRefund s now send pr).db.outgoingPayments = s.db.outgoingPayments ∧
    (executeRefund s now send pr).sentTransfers
        = s.sentTransfers ++ [refundSendCall pr] := by
  simp only [executeRefund]
  rw [hsend]
  have hupd : s.db.updatePaymentRequest pr.id (setStatus "refunded")
      = Except.ok ({ s.db with paymentRequests := (s.db.paymentRequests.map
          (fun q => if q.id == pr.id then setStatus "refunded" r else q)) },
        setStatus "refunded" r) := by
    unfold DB.updatePaymentRequest
    rw [hfind]
  rw [hupd]
  refine ⟨?_, rfl, rfl, rfl⟩
  show (List.map (fun q => if q.id == pr.id then setStatus "refunded" r else q)
      s.db.paymentRequests).find? (fun q => q.id == pr.id) = some (setStatus "refunded" r)
  have hfind' : List.find? (fun q => q.id == pr.id) s.db.paymentRequests = some r := hfind
  rw [find?_map_update_pr _ pr.id (setStatus "refunded" r)
    ((findPaymentRequest_eq_some hfind).2), hfind']
  rfl

/-! ## Concrete executions of the engine (used as evidence below) -/

def noRequest : PaymentRequest :=
  { id := "", userId := "", amount := 0, currency := "", network := "",
    recipientEmail := none, recipientName := none, description := none,
    aiPrompt := none, transactionType := "", scheduleType := "",
    scheduledDate := none, status := "", x402PayLink := "", paymentHash := none,
    paidAt := none, refundDate := none, createdAt := 0 }

def exUser : User :=
  { id := "u1", walletAddress := some "0xW", email := some "owner@example.com" }

def exState0 : ServiceState := initState [exUser]

/-- An immediate `ask_payment` request. -/
def exParamsAP : CreateParams :=
  { userId := "u1", amount := 100, currency := "USDC", network := "sei-testnet",
    recipientEmail := some "payer@example.com", recipientName := some "Payer",
    description := some "invoice", transactionType := "ask_payment",
    scheduleType := "immediate", scheduledDate := none, aiPrompt := none }

def exCreateAP : Except String (ServiceState × CreateResult) :=
  createPaymentRequest exState0 10 "p1" exParamsAP

def exS1 : ServiceState :=
  match exCreateAP with
  | Except.ok (s, _) => s
  | Except.error _ => exState0

def exR1 : CreateResult :=
  match exCreateAP with
  | Except.ok (_, r) => r
  | Except.error _ =>
      { paymentId := "", paymentUrl := "", destinationWallet := "", request := noRequest }

def exPaid1 : Except String (ServiceState × PaidResult) :=
  handlePaymentSuccess exS1 20 "p1" (some "proofA")

def exS2 : ServiceState :=
  match exPaid1 with
  | Except.ok (s, _) => s
  | Except.error _ => exS1

def exP1 : PaidResult :=
  match exPaid1 with
  | Except.ok (_, r) => r
  | Except.error _ => { request := noRequest, toAddress := none }

theorem reach_exS1 : Reach exS1 :=
  Reach.step _ _ (Reach.init [exUser])
    (Step.create exState0 10 "p1" exParamsAP (exS1, exR1) rfl)

theorem reach_exS2 : Reach exS2 :=
  Reach.step _ _ reach_exS1
    (Step.paid exS1 20 "p1" (some "proofA") (exS2, exP1) rfl)

/-- An immediate `ask_and_refund` request. -/
def exParamsAAR : CreateParams :=
  { userId := "u1", amount := 100, currency := "USDC", network := "sei-testnet",
    recipientEmail := some "payer@example.com", recipientName := some "Payer",
    description := some "deposit", transactionType := "ask_and_refund",
    scheduleType := "immediate", scheduledDate := none, aiPrompt := none }

def exCreateAAR : Except String (ServiceState × CreateResult) :=
  createPaymentRequest exState0 10 "q1" exParamsAAR

def exT1 : ServiceState :=
  match exCreateAAR with
  | Except.ok (s, _) => s
  | Except.error _ => exState0

def exRT1 : CreateResult :=
  match exCreateAAR with
  | Except.ok (_, r) => r
  | Except.error _ =>
      { paymentId := "", paymentUrl := "", destinationWallet := "", request := noRequest }

def exPaidAAR : Except String (ServiceState × PaidResult) :=
  handlePaymentSuccess exT1 20 "q1" (some "proofB")

def exT2 : ServiceState :=
  match exPaidAAR with
  | Except.ok (s, _) => s
  | Except.error _ => exT1

def exPT2 : PaidResult :=
  match exPaidAAR with
  | Except.ok (_, r) => r
  | Except.error _ => { request := noRequest, toAddress := none }

theorem reach_exT1 : Reach exT1 :=
  Reach.step _ _ (Reach.init [exUser])
    (Step.create exState0 10 "q1" exParamsAAR (exT1, exRT1) rfl)

theorem reach_exT2 : Reach exT2 :=
  Reach.step _ _ reach_exT1
    (Step.paid exT1 20 "q1" (some "proofB") (exT2, exPT2) rfl)

/-- The `q1` request row after payment (paid at 20, refund due at 50). -/
def exReqQ1 : PaymentRequest :=
  match exT2.db.findPaymentRequest "q1" with
  | some r => r
  | none => noRequest

/-- The `q1` request row right after creation. -/
def exReqT1 : PaymentRequest :=
  match exT1.db.findPaymentRequest "q1" with
  | some r => r
  | none => noRequest

/-- The refund cycle run at time 50 with an always-successful send oracle. -/
def exT3 : ServiceState := processScheduledRefunds exT2 50 (fun _ => some "0xrefund")

/-- A scheduled-for-later (`scheduledDate = 100 > now = 10`) request. -/
def exParamsSched : CreateParams :=
  { userId := "u1", amount := 100, currency := "USDC", network := "sei-testnet",
    recipientEmail := some "payer@example.com", recipientName := some "Payer",
    description := some "later", transactionType := "ask_payment",
    scheduleType := "scheduled", scheduledDate := some 100, aiPrompt := none }

def exCreateSched : Except String (ServiceState × CreateResult) :=
  createPaymentRequest exState0 10 "r1" exParamsSched

def exU1 : ServiceState :=
  match exCreateSched with
  | Except.ok (s, _) => s
  | Except.error _ => exState0

def exRU1 : CreateResult :=
  match exCreateSched with
  | Except.ok (_, r) => r
  | Except.error _ =>
      { paymentId := "", paymentUrl := "", destinationWallet := "", request := noRequest }

/-- A `scheduled` request whose activation date (5) is already past at
creation time (100). -/
def exParamsPast : CreateParams :=
  { userId := "u1", amount := 100, currency := "USDC", network := "sei-testnet",
    recipientEmail := some "payer@example.com", recipientName := some "Payer",
    description := some "past", transactionType := "ask_payment",
    scheduleType := "scheduled", scheduledDate := some 5, aiPrompt := none }

/-- A user without a Privy wallet. -/
def exUserNW : User := { id := "u2", walletAddress := none, email := some "nw@example.com" }

def exParamsNW : CreateParams := { exParamsAP with userId := "u2" }

/-! ## The claims -/

/-- C1: the spec requires `markPaid` (`handlePaymentSuccess`) to be an
idempotent no-op on a second call with the same id — exactly one LedgerEntry
(`Transaction`) and one notification from two calls. The code has no status
guard: rerunning `handlePaymentSuccess` on the already-`payment_received`
request `p1` succeeds again and appends a second `INCOMING` ledger row and a
second workspace-mirror call (the first call produced exactly one of each). -/
theorem agenpay_C1_markPaid_second_call_duplicates_effects :
    exS2.db.transactions.length = 1 ∧ exS2.notionUpdates.length = 1 ∧
    (handlePaymentSuccess exS2 30 "p1" (some "proofA")).map
        (fun out => (out.1.db.transactions.length, out.1.notionUpdates.length))
      = Except.ok (2, 2) := ⟨rfl, rfl, rfl⟩

/-- C2 counterexample: the claim says a `scheduled` request has no route until
activation (`lookup` returns NotFound while Scheduled). In the code
`createPaymentRequest` registers the route unconditionally: the freshly
created request `r1` is in status `scheduled` and its route lookup already
succeeds. -/
theorem agenpay_C2_counterexample_route_live_while_scheduled :
    ((exU1.db.findPaymentRequest "r1").map (fun r => r.status) = some "scheduled") ∧
    (mapLookup exU1.paymentRoutes "r1").isSome = true := ⟨rfl, rfl⟩

/-- C2 amended: the route is registered at creation time for every request
(scheduled ones included), a scheduled request is created in status
`scheduled`, and the Scheduler's activation cycle flips the status without
touching the route registry. -/
theorem agenpay_C2_amended_route_registered_at_creation
    (s : ServiceState) (now : Instant) (pid : String) (p : CreateParams)
    (out : ServiceState × CreateResult)
    (h : createPaymentRequest s now pid p = Except.ok out) :
    (mapLookup out.1.paymentRoutes pid).isSome = true ∧
    (p.scheduleType ≠ "immediate" → out.2.request.status = "scheduled") ∧
    ∀ t, (processScheduledRequests out.1 t).paymentRoutes = out.1.paymentRoutes := by
  obtain ⟨-, -, -, -, -, -, hroutes, -, -, -, hreq⟩ := createPaymentRequest_ok h
  refine ⟨?_, ?_, ?_⟩
  · rw [hroutes, mapLookup_mapSet, if_pos rfl]
    rfl
  · intro hsched
    rw [hreq]
    show (if p.scheduleType == "immediate" then "processing" else "scheduled") = "scheduled"
    rw [if_neg (by simpa using hsched)]
  · intro t
    exact processScheduledRequests_routes out.1 t

theorem agenpay_C2_amended_witness :
    (mapLookup exU1.paymentRoutes "r1").isSome = true ∧
    (processScheduledRequests exU1 200).paymentRoutes = exU1.paymentRoutes := by
  have h := agenpay_C2_amended_route_registered_at_creation exState0 10 "r1" exParamsSched
    (exU1, exRU1) rfl
  exact ⟨h.1, h.2.2 200⟩

/-- C3: the spec disallows cancelling a `PaymentReceived` request (domain
error, status unchanged). The code's `cancelPaymentRequest` performs an
unconditional status update: on the paid request `p1` it succeeds and
overwrites `payment_received` with `cancelled`. -/
theorem agenpay_C3_cancel_succeeds_after_payment_received :
    ((exS2.db.findPaymentRequest "p1").map (fun r => r.status) = some "payment_received") ∧
    (cancelPaymentRequest exS2 "p1").map
        (fun x => (x.2.status, (x.1.db.findPaymentRequest "p1").map (fun r => r.status)))
      = Except.ok ("cancelled", some "cancelled") := ⟨rfl, rfl⟩

/-- C4: in every reachable state, a request's `refundDate` is non-null iff its
kind is `ask_and_refund` and it has reached `payment_received` (`paidAt` is
written exactly at that transition and never cleared, so `paidAt ≠ none`
formalises "status has reached PaymentReceived"), and when set it equals the
paid timestamp plus 30 days (instants are measured in days). -/
theorem agenpay_C4_refundDate_iff_paid_ask_and_refund
    (s : ServiceState) (h : Reach s) :
    ∀ r ∈ s.db.paymentRequests,
      (r.refundDate ≠ none ↔ (r.transactionType = "ask_and_refund" ∧ r.paidAt ≠ none)) ∧
      (∀ d t, r.refundDate = some d → r.paidAt = some t → d = t + 30) :=
  fun r hr => (reach_dbinv h).1 r hr

theorem agenpay_C4_witness :
    exReqQ1.refundDate ≠ none ∧ exReqQ1.refundDate = some 50 ∧
    exReqQ1.paidAt = some 20 := by
  have h := agenpay_C4_refundDate_iff_paid_ask_and_refund exT2 reach_exT2 exReqQ1 (by decide)
  exact ⟨h.1.mpr ⟨by decide, by decide⟩, by decide, by decide⟩

/-- C5: the 5-second timeout fallback of the payment route always produces a
definite response: with the `x-payment` proof header present the payment is
optimistically settled (`handlePaymentSuccess` runs, the request becomes
`payment_received`, and the success page is returned — or a 400 error page if
processing throws, still definite); with no proof header a timeout error
response is returned instead of hanging. -/
theorem agenpay_C5_timeout_definite_response
    (s : ServiceState) (now : Instant) (pid : String) :
    (∀ proof out, handlePaymentSuccess s now pid (some proof) = Except.ok out →
        x402TimeoutFallback s now pid (some proof)
          = (out.1, GatewayResponse.successPage pid out.2.request.amount
              out.2.request.currency out.2.request.description out.2.toAddress) ∧
        out.2.request.status = "payment_received") ∧
    (∀ proof e, handlePaymentSuccess s now pid (some proof) = Except.error e →
        x402TimeoutFallback s now pid (some proof)
          = (s, GatewayResponse.verificationFailed pid e)) ∧
    x402TimeoutFallback s now pid none = (s, GatewayResponse.timeoutError pid) := by
  refine ⟨?_, ?_, rfl⟩
  · intro proof out h
    constructor
    · show (match handlePaymentSuccess s now pid (some proof) with
        | Except.ok (s', result) =>
            (s', GatewayResponse.successPage pid result.request.amount
              result.request.currency result.request.description result.toAddress)
        | Except.error e => (s, GatewayResponse.verificationFailed pid e)) = _
      rw [h]
    · obtain ⟨r0, -, hreq, -, -, -, -, -, -⟩ := handlePaymentSuccess_ok h
      rw [hreq]
      rfl
  · intro proof e h
    show (match handlePaymentSuccess s now pid (some proof) with
      | Except.ok (s', result) =>
          (s', GatewayResponse.successPage pid result.request.amount
            result.request.currency result.request.description result.toAddress)
      | Except.error e => (s, GatewayResponse.verificationFailed pid e)) = _
    rw [h]

theorem agenpay_C5_witness :
    x402TimeoutFallback exS1 20 "p1" (some "proofA")
      = (exS2, GatewayResponse.successPage "p1" exP1.request.amount
          exP1.request.currency exP1.request.description exP1.toAddress) ∧
    x402TimeoutFallback exS1 20 "p1" none = (exS1, GatewayResponse.timeoutError "p1") := by
  have h := agenpay_C5_timeout_definite_response exS1 20 "p1"
  exact ⟨(h.1 "proofA" (exS2, exP1) rfl).1, h.2.2⟩

/-- C6 counterexample: the claim says a scheduled request whose activation
time has already passed is created directly in `Processing`. In the code the
status depends only on `scheduleType`: created at time 100 with
`scheduledDate = 5` (already past), the request is still `scheduled`. -/
theorem agenpay_C6_counterexample_past_activation_not_processed :
    (createPaymentRequest exState0 100 "r2" exParamsPast).map
        (fun out => out.2.request.status) = Except.ok "scheduled" := rfl

/-- C6 amended: the created status is determined solely by `scheduleType`
(`processing` iff `immediate`, else `scheduled`), regardless of whether the
scheduled activation time is past or future; a past-dated scheduled request is
only activated later by the Scheduler's cycle. -/
theorem agenpay_C6_amended_status_solely_from_scheduleType
    (s : ServiceState) (now : Instant) (pid : String) (p : CreateParams)
    (out : ServiceState × CreateResult)
    (h : createPaymentRequest s now pid p = Except.ok out) :
    out.2.request.status
      = (if p.scheduleType == "immediate" then "processing" else "scheduled") := by
  obtain ⟨-, -, -, -, -, -, -, -, -, -, hreq⟩ := createPaymentRequest_ok h
  rw [hreq]

theorem agenpay_C6_amended_witness : exR1.request.status = "processing" := by
  have h := agenpay_C6_amended_status_solely_from_scheduleType exState0 10 "p1" exParamsAP
    (exS1, exR1) rfl
  simpa using h

/-- C7: rebuilding the route registry from the durable store at startup
(`loadActivePaymentRoutes` over the constructor-fresh empty map, hence
independent of any pre-crash in-memory state) yields exactly one route per
persisted request in an awaiting-payment status (`processing`/`scheduled`):
the registry size equals the number of awaiting requests and a lookup
succeeds exactly for their ids. -/
theorem agenpay_C7_rebuild_exactly_awaiting (s : ServiceState) (h : Reach s) :
    (loadActivePaymentRoutes s.db).length
        = (s.db.paymentRequests.filter (fun r => isAwaiting r.status)).length ∧
    ∀ id, (mapLookup (loadActivePaymentRoutes s.db) id).isSome = true
        ↔ ∃ r ∈ s.db.paymentRequests, r.id = id ∧ isAwaiting r.status = true := by
  have inv := reach_dbinv h
  exact ⟨loadActive_length inv.2.1 inv.2.2, fun id => loadActive_lookup id inv.2.1⟩

theorem agenpay_C7_witness :
    (loadActivePaymentRoutes exS1.db).length = 1 ∧
    (mapLookup (loadActivePaymentRoutes exS1.db) "p1").isSome = true := by
  have h := agenpay_C7_rebuild_exactly_awaiting exS1 reach_exS1
  constructor
  · rw [h.1]
    decide
  · exact (h.2 "p1").mpr ⟨exR1.request, by decide, by decide, by decide⟩

/-- C8 counterexample: the claim says the refund cycle creates an
`OutgoingPayment` (if not already created) and transitions the request to
`Refunded` only after that `OutgoingPayment` completes. Running the cycle on
the due request `q1` (refund due at 50, cycle at 50, send succeeding) marks
`q1` refunded immediately while the sole `OutgoingPayment` — the one
`scheduleRefund` created at payment time — is still merely `scheduled`, and
no new `OutgoingPayment` appears. -/
theorem agenpay_C8_counterexample_refund_without_outgoing_completion :
    ((exT2.db.findPaymentRequest "q1").map (fun r => r.status) = some "payment_received") ∧
    exT2.db.outgoingPayments.map (fun p => (p.id, p.status)) = [("out_0", "scheduled")] ∧
    ((exT3.db.findPaymentRequest "q1").map (fun r => r.status) = some "refunded") ∧
    exT3.db.outgoingPayments.map (fun p => (p.id, p.status)) = [("out_0", "scheduled")] :=
  ⟨rfl, rfl, rfl, rfl⟩

/-- C8 amended: the refund cycle neither creates nor consults any
`OutgoingPayment`; for each due request it invokes the wallet send primitive
directly and, when the send succeeds, immediately marks the request
`refunded` and appends a `REFUND` ledger row. -/
theorem agenpay_C8_amended_refund_cycle_sends_directly
    (s : ServiceState) (now : Instant) (send : SendOracle) :
    (processScheduledRefunds s now send).db.outgoingPayments = s.db.outgoingPayments ∧
    ∀ pr r txh, send (refundSendCall pr) = some txh →
      s.db.findPaymentRequest pr.id = some r →
      (executeRefund s now send pr).db.findPaymentRequest pr.id
          = some (setStatus "refunded" r) ∧
      (executeRefund s now send pr).db.transactions
          = s.db.transactions ++ [refundTxn s now pr txh] := by
  refine ⟨processScheduledRefunds_outgoing s now send, ?_⟩
  intro pr r txh hsend hfind
  have h := executeRefund_success_spec s now send pr r txh hsend hfind
  exact ⟨h.1, h.2.1⟩

theorem agenpay_C8_amended_witness :
    (executeRefund exT2 50 (fun _ => some "0xrefund") exReqQ1).db.findPaymentRequest "q1"
        = some (setStatus "refunded" exReqQ1) ∧
    exT3.db.outgoingPayments = exT2.db.outgoingPayments := by
  have h := agenpay_C8_amended_refund_cycle_sends_directly exT2 50 (fun _ => some "0xrefund")
  refine ⟨?_, h.1⟩
  have h2 := (h.2 exReqQ1 exReqQ1 "0xrefund" rfl (by decide)).1
  have hid : exReqQ1.id = "q1" := by decide
  rw [← hid]
  exact h2

/-- C9: `createPaymentRequest` first checks the owning user's wallet: with no
resolvable wallet address it throws `'User must create a Privy wallet before
requesting payments'` before any write (so no request row and no route are
created — the embedding returns only the error), and a successful creation
implies the user had a wallet address, which becomes the destination. -/
theorem agenpay_C9_wallet_required
    (s : ServiceState) (now : Instant) (pid : String) (p : CreateParams) :
    (ownerWallet s.db.users p.userId = none →
      createPaymentRequest s now pid p
        = Except.error "User must create a Privy wallet before requesting payments") ∧
    (∀ out, createPaymentRequest s now pid p = Except.ok out →
      ∃ w, ownerWallet s.db.users p.userId = some w ∧ out.2.destinationWallet = w) := by
  constructor
  · intro hw
    unfold createPaymentRequest
    rw [hw]
  · intro out h
    obtain ⟨hw, -, -, -, -, -, -, -, -, -, -⟩ := createPaymentRequest_ok h
    exact ⟨out.2.destinationWallet, hw, rfl⟩

theorem agenpay_C9_witness :
    createPaymentRequest (initState [exUserNW]) 10 "p9" exParamsNW
      = Except.error "User must create a Privy wallet before requesting payments" :=
  (agenpay_C9_wallet_required (initState [exUserNW]) 10 "p9" exParamsNW).1 rfl

/-- C10: refunds are addressed to the originating request's `recipientEmail`
field, not a wallet address: `scheduleRefund` stores `recipientEmail` as the
new `OutgoingPayment`'s `recipientAddress`, and `executeRefund` passes
`recipientEmail` directly to the `sendCrypto` primitive as the recipient. -/
theorem agenpay_C10_refund_recipient_is_email :
    (∀ (db : DB) (now : Instant) (pr : PaymentRequest) (out : DB × OutgoingPayment),
        scheduleRefund db now pr = Except.ok out →
        out.2.recipientAddress = pr.recipientEmail ∧
        out.1.outgoingPayments = db.outgoingPayments ++ [out.2]) ∧
    (∀ (s : ServiceState) (now : Instant) (send : SendOracle) (pr : PaymentRequest),
        (executeRefund s now send pr).sentTransfers
          = s.sentTransfers ++ [refundSendCall pr]) ∧
    (∀ pr : PaymentRequest, (refundSendCall pr).recipient = pr.recipientEmail) := by
  refine ⟨?_, ?_, fun pr => rfl⟩
  · intro db now pr out h
    obtain ⟨ha, -, -, -, -, ho, -⟩ := scheduleRefund_ok h
    exact ⟨ha, ho⟩
  · intro s now send pr
    simp only [executeRefund]
    split
    · rfl
    · split
      · rfl
      · rfl

def exSched : Except String (DB × OutgoingPayment) := scheduleRefund exT1.db 20 exReqT1

def exSchedOut : DB × OutgoingPayment :=
  match exSched with
  | Except.ok out => out
  | Except.error _ =>
      (exT1.db,
        { id := "", userId := "", amount := 0, currency := "", network := "",
          recipientAddress := none, recipientName := none, fromName := none,
          description := none, scheduleDate := 0, status := "", txHash := none,
          executedAt := none, relatedRequestId := none })

theorem agenpay_C10_witness :
    exSchedOut.2.recipientAddress = some "payer@example.com" ∧
    (executeRefund exT2 50 (fun _ => some "0xrefund") exReqQ1).sentTransfers
      = exT2.sentTransfers ++ [refundSendCall exReqQ1] := by
  have h := agenpay_C10_refund_recipient_is_email
  refine ⟨?_, h.2.1 exT2 50 (fun _ => some "0xrefund") exReqQ1⟩
  have h1 := (h.1 exT1.db 20 exReqT1 exSchedOut rfl).1
  rw [h1]
  decide

end AgenPay
